import Mathlib

/-!
Shallow embedding of `rules.py` from the pv-attributes repository.

The source decides, for a media file, whether its filesystem modification
timestamp should be corrected from date/time evidence embedded in the file
name or in an ancestor directory name.

Modelling conventions:
* Strings are `List Char`; `Char.isDigit` models Python `str.isdigit`
  (ASCII digits; the files under consideration use ASCII names).
* A filesystem path is its list of components below the root, so
  `[]` is `/`, `["a", "b", "c.jpg"]` is `/a/b/c.jpg`.  Python
  `PurePath.is_relative_to` is component-list prefix, `Path.parent`
  drops the last component, `Path.parents` walks to the root.
* A timezone (`zoneinfo.ZoneInfo`) is modelled by its fixed UTC offset in
  seconds; `datetime` values are a naive wall-clock record plus an optional
  zone (`none` = naive).  Python compares aware datetimes by their absolute
  instant, and `astimezone` on a naive datetime interprets it in the
  machine-local zone, so the model carries a machine-local zone in the
  configuration.  `astimezone` to the zone a value already carries leaves
  the wall-clock fields unchanged.
* The configured period table `PERIODS`, the `SYSTEM_ZONE` and the derived
  year set `YEARS` come from the external `config` module; they are
  modelled as an explicit read-only `Config` value threaded through every
  definition, exactly as the spec's configuration contract describes.
* `print` diagnostics are modelled as an explicit list of emitted
  `Diag` records (year and file path, the data the message interpolates).
* `datetime.replace(month=...)` / `replace(day=...)` re-validate the
  resulting date and raise `ValueError` on failure; this is modelled with
  `Except String`.
-/

deriving instance DecidableEq for Except

namespace PVA

/-- A character string, modelled as a list of characters. -/
abbrev Str : Type := List Char

/-- Numeric value of a digit string, as Python `int` on an all-digit string. -/
def decDigits (s : Str) : Nat :=
  List.foldl (fun a c => 10 * a + (c.toNat - 48)) 0 s

/-- A naive date+time (Python `datetime` without its `tzinfo`). -/
structure NaiveDT where
  year : Nat
  month : Nat
  day : Nat
  hour : Nat
  minute : Nat
  second : Nat
deriving DecidableEq, Repr

/-- Gregorian leap year, as Python `calendar`/`datetime` define it. -/
def isLeap (y : Nat) : Bool :=
  y % 4 == 0 && (y % 100 != 0 || y % 400 == 0)

/-- Number of days in a month, as validated by the `datetime` constructor. -/
def daysInMonth (y m : Nat) : Nat :=
  if m = 2 then (if isLeap y then 29 else 28)
  else if m = 4 ∨ m = 6 ∨ m = 9 ∨ m = 11 then 30 else 31

/-- The date fields the `datetime` constructor accepts (Python `MINYEAR = 1`). -/
abbrev dateOK (y m d : Nat) : Prop :=
  1 ≤ y ∧ 1 ≤ m ∧ m ≤ 12 ∧ 1 ≤ d ∧ d ≤ daysInMonth y m

/-- Days in months before month `m` of year `y` (cumulative calendar). -/
def daysBeforeMonth (y m : Nat) : Nat :=
  List.getD [0, 31, 59, 90, 120, 151, 181, 212, 243, 273, 304, 334] (m - 1) 0
    + (if 2 < m ∧ isLeap y then 1 else 0)

/-- Days in years before year `y` (day 0 is 0001-01-01, proleptic Gregorian). -/
def daysBeforeYear (y : Nat) : Nat :=
  365 * (y - 1) + (y - 1) / 4 - (y - 1) / 100 + (y - 1) / 400

/-- Day number of a naive datetime (0001-01-01 is day 0). -/
def toDays (n : NaiveDT) : Nat :=
  daysBeforeYear n.year + daysBeforeMonth n.year n.month + (n.day - 1)

/-- Second number of a naive datetime on the linear wall-clock scale. -/
def toSecs (n : NaiveDT) : Int :=
  86400 * (toDays n : Int) + 3600 * (n.hour : Int) + 60 * (n.minute : Int) + (n.second : Int)

/-- Civil date from a day number (0001-01-01 is day 0); the standard
era-based conversion used by calendar libraries. -/
def civilFromDays (z0 : Int) : Nat × Nat × Nat :=
  let z := z0 + 306
  let era := z.fdiv 146097
  let doe := z - era * 146097
  let yoe := (doe - doe.fdiv 1460 + doe.fdiv 36524 - doe.fdiv 146096).fdiv 365
  let y := yoe + era * 400
  let doy := doe - (365 * yoe + yoe.fdiv 4 - yoe.fdiv 100)
  let mp := (5 * doy + 2).fdiv 153
  let d := doy - (153 * mp + 2).fdiv 5 + 1
  let m := if mp < 10 then mp + 3 else mp - 9
  let yy := if m ≤ 2 then y + 1 else y
  (yy.toNat, m.toNat, d.toNat)

/-- Naive datetime from a second number (inverse of `toSecs`). -/
def fromSecs (s : Int) : NaiveDT :=
  let days := s.fdiv 86400
  let rem := (s - 86400 * days).toNat
  let c := civilFromDays days
  ⟨c.1, c.2.1, c.2.2, rem / 3600, rem % 3600 / 60, rem % 60⟩

/-- A timezone, modelled by its fixed UTC offset in seconds. -/
structure Zone where
  offset : Int
deriving DecidableEq, Repr

/-- A Python `datetime`: naive wall-clock fields plus an optional zone. -/
structure DT where
  naive : NaiveDT
  tz : Option Zone
deriving DecidableEq, Repr

/-- A filesystem path as its component list below the root. -/
abbrev Path : Type := List Str

/-- Python `Path.name`: the final component (empty for the root). -/
def pathName (p : Path) : Str := (List.getLast? p).getD []

/-- Python `Path.parent`: drop the final component. -/
def pathParent (p : Path) : Path := List.dropLast p

/-- Python `Path.parents`: ancestors from the immediate parent up to the root. -/
def pathParents (p : Path) : List Path :=
  List.map (fun k => List.take k p) (List.reverse (List.range (List.length p)))

/-- Python `PurePath.stem`: final component without its suffix.  The suffix
starts at the last dot, provided that dot is neither the first nor the last
character of the name. -/
def pathStem (p : Path) : Str :=
  let name := pathName p
  let dots := List.filter (fun i => decide (List.get? name i = some '.'))
    (List.range (List.length name))
  match List.getLast? dots with
  | none => name
  | some i => if 0 < i ∧ i < List.length name - 1 then List.take i name else name

/-- A configured timezone period (`config.PERIODS` entry): a directory
scope, an inclusive aware time range, and the zone to apply.  `stop`
models the source's `period.end` (`end` is reserved in Lean). -/
structure Period where
  path : Path
  start : DT
  stop : DT
  timezone : Zone
deriving DecidableEq, Repr

/-- The external configuration: the ordered period table, the system zone
(`config.SYSTEM_ZONE`) and the machine-local zone Python uses when
`astimezone` is applied to a naive datetime. -/
structure Config where
  periods : List Period
  systemZone : Zone
  localZone : Zone
deriving DecidableEq, Repr

/-- Absolute instant of a datetime, in seconds; a naive datetime is read in
the machine-local zone, as Python `astimezone`/aware comparison do. -/
def absSeconds (cfg : Config) (dt : DT) : Int :=
  toSecs dt.naive - (dt.tz.getD cfg.localZone).offset

/-- Python `datetime.astimezone`: same absolute instant, wall clock of the
target zone.  Converting to the zone a value already carries keeps its
wall-clock fields. -/
def astimezoneDT (cfg : Config) (dt : DT) (z : Zone) : DT :=
  if dt.tz = some z then dt else ⟨fromSecs (absSeconds cfg dt + z.offset), some z⟩

/-- Definition `YEARS` from `rules.py`: every calendar year from each period's start
year through its end year. -/
def YEARS (cfg : Config) : List Nat :=
  List.flatMap cfg.periods
    (fun period =>
      List.range' period.start.naive.year
        (period.stop.naive.year + 1 - period.start.naive.year))

/-- Membership in `YEARS` (Python `in` on the set). -/
def yearMem (cfg : Config) (y : Nat) : Bool := decide (y ∈ YEARS cfg)

/-- A file under consideration: its path and its current modification
time, an aware datetime normalized to the system zone (the wall-clock
fields in the system zone are stored). -/
structure FileStat where
  path : Path
  mtime : NaiveDT
deriving DecidableEq, Repr

/-- The file's mtime as the aware datetime the rules receive. -/
def mtimeDT (cfg : Config) (fs : FileStat) : DT := ⟨fs.mtime, some cfg.systemZone⟩

/-- A diagnostic record: the data interpolated into the implausible-year
`print` message (the offending year and the file's path). -/
structure Diag where
  year : Nat
  path : Path
deriving DecidableEq, Repr

/-- Whether a period applies in `timezone_for_date`: the path's parent is
inside the period's directory scope, and the instant converted to the
system zone lies in the inclusive `[start, stop]` range. -/
def periodApplies (cfg : Config) (dt : DT) (path : Path) (period : Period) : Bool :=
  List.isPrefixOf period.path (pathParent path) &&
    (decide (absSeconds cfg period.start ≤
       absSeconds cfg (astimezoneDT cfg dt cfg.systemZone)) &&
     decide (absSeconds cfg (astimezoneDT cfg dt cfg.systemZone) ≤
       absSeconds cfg period.stop))

/-- The `for period in reversed(PERIODS)` loop body of `timezone_for_date`:
first applicable period wins, else the system zone. -/
def tzLoop (cfg : Config) (dt : DT) (path : Path) : List Period → Zone
  | [] => cfg.systemZone
  | period :: rest =>
    if periodApplies cfg dt path period then period.timezone
    else tzLoop cfg dt path rest

/-- Function `timezone_for_date` from `rules.py`. -/
def timezone_for_date (cfg : Config) (dt : DT) (path : Path) : Zone :=
  tzLoop cfg dt path (List.reverse cfg.periods)

/-- The fixed-width value checks `strptime("%Y%m%d_%H%M%S")` performs on an
8-digits/underscore/6-digits candidate: the format regex forces the
4-2-2/2-2-2 split, months `01`-`12`, and the `datetime` constructor
validates the calendar date and the clock (seconds `60`/`61` pass the
regex but the constructor rejects them). -/
def strptimeFull (c : Str) : Option NaiveDT :=
  let y := decDigits (List.take 4 c)
  let m := decDigits (List.take 2 (List.drop 4 c))
  let d := decDigits (List.take 2 (List.drop 6 c))
  let hh := decDigits (List.take 2 (List.drop 9 c))
  let mi := decDigits (List.take 2 (List.drop 11 c))
  let ss := decDigits (List.take 2 (List.drop 13 c))
  if dateOK y m d ∧ hh ≤ 23 ∧ mi ≤ 59 ∧ ss ≤ 59 then some ⟨y, m, d, hh, mi, ss⟩ else none

/-- Function `_get_date_n_time` from `rules.py`. -/
def _get_date_n_time (candidate : Str) : Option NaiveDT :=
  if List.length candidate ≠ 15 ∨
      (List.take 8 candidate).all Char.isDigit = false ∨
      List.get? candidate 8 ≠ some '_' ∨
      (List.take 6 (List.drop 9 candidate)).all Char.isDigit = false then
    none
  else
    strptimeFull candidate

/-- Function `_first_digit_index` from `rules.py`. -/
def _first_digit_index (candidate : Str) : Option Nat :=
  List.findIdx? Char.isDigit candidate

/-- The four date formats `rules.py` passes to `_get_date_without_time`. -/
inductive DateFormat where
  | ymd8    -- "%Y%m%d"
  | ymdDash -- "%Y-%m-%d"
  | ymDash  -- "%Y-%m"
  | yOnly   -- "%Y"
deriving DecidableEq, Repr

/-- Length of a format's example rendering (`2020`/`12`/`31` substitution). -/
def fmtLen : DateFormat → Nat
  | .ymd8 => 8
  | .ymdDash => 10
  | .ymDash => 7
  | .yOnly => 4

/-- Whether the format string contains `%m`. -/
def fmtHasMonth : DateFormat → Bool
  | .ymd8 => true
  | .ymdDash => true
  | .ymDash => true
  | .yOnly => false

/-- Whether the format string contains `%d`. -/
def fmtHasDay : DateFormat → Bool
  | .ymd8 => true
  | .ymdDash => true
  | .ymDash => false
  | .yOnly => false

/-- Semantics of `strptime` on a length-matched slice against one of the four date
formats.  The fixed-width analysis of the `_strptime` regex forces the
digit positions and separators shown here; missing month/day default
to 1, the time to midnight, and the `datetime` constructor validates the
result (so a year `0000` is rejected). -/
def strptimeDate (s : Str) (fmt : DateFormat) : Option NaiveDT :=
  match fmt with
  | .ymd8 =>
    let y := decDigits (List.take 4 s)
    let m := decDigits (List.take 2 (List.drop 4 s))
    let d := decDigits (List.drop 6 s)
    if s.all Char.isDigit = true ∧ dateOK y m d then some ⟨y, m, d, 0, 0, 0⟩ else none
  | .ymdDash =>
    let y := decDigits (List.take 4 s)
    let m := decDigits (List.take 2 (List.drop 5 s))
    let d := decDigits (List.drop 8 s)
    if (List.take 4 s).all Char.isDigit = true ∧ List.get? s 4 = some '-' ∧
        (List.take 2 (List.drop 5 s)).all Char.isDigit = true ∧ List.get? s 7 = some '-' ∧
        (List.drop 8 s).all Char.isDigit = true ∧ dateOK y m d then
      some ⟨y, m, d, 0, 0, 0⟩
    else none
  | .ymDash =>
    let y := decDigits (List.take 4 s)
    let m := decDigits (List.drop 5 s)
    if (List.take 4 s).all Char.isDigit = true ∧ List.get? s 4 = some '-' ∧
        (List.drop 5 s).all Char.isDigit = true ∧ dateOK y m 1 then
      some ⟨y, m, 1, 0, 0, 0⟩
    else none
  | .yOnly =>
    let y := decDigits s
    if s.all Char.isDigit = true ∧ dateOK y 1 1 then some ⟨y, 1, 1, 0, 0, 0⟩ else none

/-- Function `_get_date_without_time` from `rules.py`: reject candidates shorter
than the format's rendered length, then parse the length-matched prefix. -/
def _get_date_without_time (candidate : Str) (fmt : DateFormat) : Option NaiveDT :=
  if List.length candidate < fmtLen fmt then none
  else strptimeDate (List.take (fmtLen fmt) candidate) fmt

/-- The instant `_apply_time_zone` computes: the parsed naive datetime,
stamped with the zone resolved from it and the file's path, converted to
the system zone (its wall-clock fields there). -/
def reconciledInstant (cfg : Config) (stemDT : NaiveDT) (path : Path) : NaiveDT :=
  (astimezoneDT cfg ⟨stemDT, some (timezone_for_date cfg ⟨stemDT, none⟩ path)⟩
    cfg.systemZone).naive

/-- The zone-attach/convert/compare tail of `_apply_time_zone`, after the
year-plausibility gate (the converted value is an aware datetime in the
system zone). -/
def _apply_time_zone_core (cfg : Config) (stemDT : NaiveDT) (fs : FileStat) : Option NaiveDT :=
  if absSeconds cfg ⟨reconciledInstant cfg stemDT fs.path, some cfg.systemZone⟩ ≠
      absSeconds cfg (mtimeDT cfg fs) then
    some (reconciledInstant cfg stemDT fs.path)
  else none

/-- Function `_apply_time_zone` from `rules.py`: gate on the plausible-year set,
then resolve the zone from the parsed naive datetime and the file's path,
convert to the system zone, and suppress a no-op result. -/
def _apply_time_zone (cfg : Config) (stemDT : NaiveDT) (fs : FileStat) :
    Option NaiveDT × List Diag :=
  if yearMem cfg stemDT.year = false then (none, [⟨stemDT.year, fs.path⟩])
  else (_apply_time_zone_core cfg stemDT fs, [])

/-- The instant `_add_time_from_stat` computes: the parsed date combined
with the system-zone time-of-day of the file's mtime
(`datetime.combine(date_n_time_stem.date(), time, SYSTEM_ZONE)`). -/
def combineStat (cfg : Config) (stemDT : NaiveDT) (fs : FileStat) : NaiveDT :=
  let m := astimezoneDT cfg (mtimeDT cfg fs) cfg.systemZone
  ⟨stemDT.year, stemDT.month, stemDT.day, m.naive.hour, m.naive.minute, m.naive.second⟩

/-- The combine/compare tail of `_add_time_from_stat`, after the
year-plausibility gate: borrow the system-zone time-of-day of the file's
mtime, combine with the parsed date, suppress a no-op result. -/
def _add_time_from_stat_core (cfg : Config) (stemDT : NaiveDT) (fs : FileStat) :
    Option NaiveDT :=
  if absSeconds cfg ⟨combineStat cfg stemDT fs, some cfg.systemZone⟩ ≠
      absSeconds cfg (mtimeDT cfg fs) then
    some (combineStat cfg stemDT fs)
  else none

/-- Function `_add_time_from_stat` from `rules.py`. -/
def _add_time_from_stat (cfg : Config) (stemDT : NaiveDT) (fs : FileStat) :
    Option NaiveDT × List Diag :=
  if yearMem cfg stemDT.year = false then (none, [⟨stemDT.year, fs.path⟩])
  else (_add_time_from_stat_core cfg stemDT fs, [])

/-- A rule verdict: `(applicable, optional new instant)`, the new instant
being an aware datetime in the system zone (its wall-clock fields). -/
abbrev RuleResult : Type := Bool × Option NaiveDT

/-- Function `rule_date_n_time` from `rules.py`. -/
def rule_date_n_time (cfg : Config) (fs : FileStat) : RuleResult × List Diag :=
  match _first_digit_index (pathStem fs.path) with
  | none => ((false, none), [])
  | some i =>
    match _get_date_n_time (List.take 15 (List.drop i (pathStem fs.path))) with
    | none => ((false, none), [])
    | some dt =>
      let r := _apply_time_zone cfg dt fs
      ((true, r.1), r.2)

/-- The `for date_format in (...)` loop of `rule_date_without_time`: first
format that parses wins and the rule returns; otherwise not applicable. -/
def tryFormats2 (cfg : Config) (fs : FileStat) (candidate : Str) :
    List DateFormat → RuleResult × List Diag
  | [] => ((false, none), [])
  | fmt :: rest =>
    match _get_date_without_time candidate fmt with
    | none => tryFormats2 cfg fs candidate rest
    | some d =>
      let r := _add_time_from_stat cfg d fs
      ((true, r.1), r.2)

/-- Function `rule_date_without_time` from `rules.py`. -/
def rule_date_without_time (cfg : Config) (fs : FileStat) : RuleResult × List Diag :=
  match _first_digit_index (pathStem fs.path) with
  | none => ((false, none), [])
  | some i => tryFormats2 cfg fs (List.drop i (pathStem fs.path)) [.ymd8, .ymdDash]

/-- The anchor-directory predicate of `_parent_with_year`: the name's
first four characters are a nonempty all-digit string whose value is in
`YEARS` (Python `"".isdigit()` is false, hence the nonemptiness check). -/
def isYearAnchor (cfg : Config) (dir : Path) : Bool :=
  let yearPart := List.take 4 (pathName dir)
  decide (yearPart ≠ []) && yearPart.all Char.isDigit && yearMem cfg (decDigits yearPart)

/-- The `for parent in path.parents` loop of `_parent_with_year`. -/
def parentLoop (cfg : Config) : List Path → Option Path
  | [] => none
  | parent :: rest =>
    if isYearAnchor cfg parent then some parent else parentLoop cfg rest

/-- Function `_parent_with_year` from `rules.py`. -/
def _parent_with_year (cfg : Config) (path : Path) : Option Path :=
  parentLoop cfg (pathParents path)

/-- Python `datetime.replace(month=m)`: re-validates the resulting date and
raises `ValueError` on failure. -/
def replaceMonth (n : NaiveDT) (m : Nat) : Except String NaiveDT :=
  if m < 1 ∨ 12 < m then .error "month must be in 1..12"
  else if daysInMonth n.year m < n.day then .error "day is out of range for month"
  else .ok { n with month := m }

/-- Python `datetime.replace(day=d)`: re-validates the resulting date and
raises `ValueError` on failure. -/
def replaceDay (n : NaiveDT) (d : Nat) : Except String NaiveDT :=
  if 1 ≤ d ∧ d ≤ daysInMonth n.year n.month then .ok { n with day := d }
  else .error "day is out of range for month"

/-- The body `rule_date_in_dir` runs once a format has parsed the anchor
directory name: attach the system zone (which does not affect the fields
used downstream), substitute the file's current month and/or day when the
format lacked them (each substitution can raise `ValueError`), then
reconcile with the stat-borrowed time. -/
def dirStep (cfg : Config) (fs : FileStat) (d0 : NaiveDT) (fmt : DateFormat) :
    Except String (RuleResult × List Diag) :=
  match (if fmtHasMonth fmt then Except.ok d0 else replaceMonth d0 fs.mtime.month) with
  | .error e => .error e
  | .ok d1 =>
    match (if fmtHasDay fmt then Except.ok d1 else replaceDay d1 fs.mtime.day) with
    | .error e => .error e
    | .ok d2 =>
      let r := _add_time_from_stat cfg d2 fs
      .ok ((true, r.1), r.2)

/-- The `for date_format in (...)` loop of `rule_date_in_dir`. -/
def tryFormats3 (cfg : Config) (fs : FileStat) (name : Str) :
    List DateFormat → Except String (RuleResult × List Diag)
  | [] => .ok ((false, none), [])
  | fmt :: rest =>
    match _get_date_without_time name fmt with
    | none => tryFormats3 cfg fs name rest
    | some d0 => dirStep cfg fs d0 fmt

/-- Function `rule_date_in_dir` from `rules.py`; `Except.error` models an escaping
`ValueError`. -/
def rule_date_in_dir (cfg : Config) (fs : FileStat) :
    Except String (RuleResult × List Diag) :=
  match _parent_with_year cfg fs.path with
  | none => .ok ((false, none), [])
  | some parent => tryFormats3 cfg fs (pathName parent) [.ymdDash, .ymDash, .yOnly]

/-!
Spec-worded variants for the refinement claim about implausible-year
abstention ("subsequent date-format attempts in the same rule still run"):
the loops below differ from the source loops only in that, when a format
parses but the year is implausible, they emit the diagnostic, remember
that a pattern matched, and move on to the next format instead of
returning.  Equality of these variants with the source rules is what makes
the early return of the source observationally equivalent to the spec's
continue-semantics.
-/

/-- Spec-worded loop of `rule_date_without_time`: abstain-and-continue on
an implausible year. -/
def tryFormats2Cont (cfg : Config) (fs : FileStat) (candidate : Str) :
    List DateFormat → Bool → List Diag → RuleResult × List Diag
  | [], matched, ds => ((matched, none), ds)
  | fmt :: rest, matched, ds =>
    match _get_date_without_time candidate fmt with
    | none => tryFormats2Cont cfg fs candidate rest matched ds
    | some d =>
      if yearMem cfg d.year = false then
        tryFormats2Cont cfg fs candidate rest true (ds ++ [⟨d.year, fs.path⟩])
      else
        let r := _add_time_from_stat cfg d fs
        ((true, r.1), ds ++ r.2)

/-- Variant of `rule_date_without_time` with the spec's continue-on-abstain loop. -/
def rule_date_without_time_cont (cfg : Config) (fs : FileStat) : RuleResult × List Diag :=
  match _first_digit_index (pathStem fs.path) with
  | none => ((false, none), [])
  | some i =>
    tryFormats2Cont cfg fs (List.drop i (pathStem fs.path)) [.ymd8, .ymdDash] false []

/-- Spec-worded loop of `rule_date_in_dir`: abstain-and-continue on an
implausible year (the month/day substitutions still precede the year
check, as in the source). -/
def tryFormats3Cont (cfg : Config) (fs : FileStat) (name : Str) :
    List DateFormat → Bool → List Diag → Except String (RuleResult × List Diag)
  | [], matched, ds => .ok ((matched, none), ds)
  | fmt :: rest, matched, ds =>
    match _get_date_without_time name fmt with
    | none => tryFormats3Cont cfg fs name rest matched ds
    | some d0 =>
      match (if fmtHasMonth fmt then Except.ok d0 else replaceMonth d0 fs.mtime.month) with
      | .error e => .error e
      | .ok d1 =>
        match (if fmtHasDay fmt then Except.ok d1 else replaceDay d1 fs.mtime.day) with
        | .error e => .error e
        | .ok d2 =>
          if yearMem cfg d2.year = false then
            tryFormats3Cont cfg fs name rest true (ds ++ [⟨d2.year, fs.path⟩])
          else
            let r := _add_time_from_stat cfg d2 fs
            .ok ((true, r.1), ds ++ r.2)

/-- Variant of `rule_date_in_dir` with the spec's continue-on-abstain loop. -/
def rule_date_in_dir_cont (cfg : Config) (fs : FileStat) :
    Except String (RuleResult × List Diag) :=
  match _parent_with_year cfg fs.path with
  | none => .ok ((false, none), [])
  | some parent =>
    tryFormats3Cont cfg fs (pathName parent) [.ymdDash, .ymDash, .yOnly] false []

/-! Concrete configurations and files used by witnesses and counterexamples. -/

/-- UTC, used as the system and machine-local zone of the test configuration. -/
def zUTC : Zone := ⟨0⟩

/-- A one-hour-east zone for a configured period. -/
def zEast : Zone := ⟨3600⟩

/-- A configured period covering 2019-2020 at the filesystem root, declaring
the system zone itself. -/
def periodW : Period :=
  ⟨[], ⟨⟨2019, 1, 1, 0, 0, 0⟩, some zUTC⟩, ⟨⟨2020, 12, 31, 23, 59, 59⟩, some zUTC⟩, zUTC⟩

/-- Test configuration: one root-scoped period over 2019-2020. -/
def cfgW : Config := ⟨[periodW], zUTC, zUTC⟩

/-- Like `cfgW` but the period declares a one-hour-east zone, so the
full-timestamp rule performs a real zone conversion. -/
def cfgE : Config :=
  ⟨[⟨[], ⟨⟨2019, 1, 1, 0, 0, 0⟩, some zUTC⟩, ⟨⟨2020, 12, 31, 23, 59, 59⟩, some zUTC⟩, zEast⟩],
   zUTC, zUTC⟩

/-- File `/a/2020-02/f.jpg` whose mtime day-of-month is 31: the anchor
directory parses under the year-month layout and `replace(day=31)` on a
February date raises. -/
def fsFeb31 : FileStat :=
  ⟨[String.toList "a", String.toList "2020-02", String.toList "f.jpg"],
   ⟨2020, 1, 31, 10, 0, 0⟩⟩

/-- File `/2019/2020-05-06/f.jpg`: two nested ancestors qualify as year
directories; the inner one must anchor. -/
def fs7 : FileStat :=
  ⟨[String.toList "2019", String.toList "2020-05-06", String.toList "f.jpg"],
   ⟨2019, 2, 3, 4, 5, 6⟩⟩

/-- File `VID-20200412-WA0000.mp4` whose mtime is exactly
2020-04-12T10:00:00 in the system zone, the spec's §8 example input. -/
def fs9 : FileStat :=
  ⟨[String.toList "VID-20200412-WA0000.mp4"], ⟨2020, 4, 12, 10, 0, 0⟩⟩

/-! Helper lemmas. -/

/-- Conversion `astimezone` always stamps its target zone on the result. -/
theorem astimezoneDT_tz (cfg : Config) (dt : DT) (z : Zone) :
    (astimezoneDT cfg dt z).tz = some z := by
  unfold astimezoneDT
  split
  · next h => rw [h]
  · rfl

/-- Conversion of the file's mtime to the system zone leaves it unchanged. -/
theorem astimezone_mtime (cfg : Config) (fs : FileStat) :
    astimezoneDT cfg (mtimeDT cfg fs) cfg.systemZone = mtimeDT cfg fs := by
  simp [astimezoneDT, mtimeDT]

/-- The parsed year of any date-only format is the numeric value of the
candidate's first four characters. -/
theorem year_of_parse (cand : Str) (fmt : DateFormat) (d : NaiveDT)
    (h : _get_date_without_time cand fmt = some d) :
    d.year = decDigits (List.take 4 cand) := by
  unfold _get_date_without_time at h
  split at h
  · exact absurd h (by simp)
  · cases fmt <;> simp only [strptimeDate, fmtLen] at h <;> split at h <;>
      first
      | (injection h with h; subst h; simp [List.take_take])
      | exact absurd h (by simp)

/-- A candidate that parses under `%Y%m%d` starts with eight digits, so it
cannot also parse under `%Y-%m-%d` (which needs a dash at index 4). -/
theorem ymd8_excludes_ymdDash (cand : Str) (d : NaiveDT)
    (h : _get_date_without_time cand .ymd8 = some d) :
    _get_date_without_time cand .ymdDash = none := by
  unfold _get_date_without_time at h ⊢
  split at h
  · exact absurd h (by simp)
  · next hlen =>
    simp only [fmtLen] at hlen
    split
    · rfl
    · next hlen10 =>
      simp only [fmtLen] at hlen10
      simp only [strptimeDate, fmtLen] at h ⊢
      split at h
      · next hcond =>
        obtain ⟨hdig, -⟩ := hcond
        have h4 : (List.take 8 cand).get? 4 = cand.get? 4 := List.get?_take (by omega)
        have h4' : (List.take 10 cand).get? 4 = cand.get? 4 := List.get?_take (by omega)
        have hlen8 : (List.take 8 cand).length = 8 := by
          rw [List.length_take]; omega
        obtain ⟨c4, hc4⟩ : ∃ c, (List.take 8 cand).get? 4 = some c := by
          cases hg : (List.take 8 cand).get? 4
          · exact absurd (List.get?_eq_none.mp hg) (by omega)
          · exact ⟨_, rfl⟩
        have hc4d : c4.isDigit = true :=
          List.all_eq_true.mp hdig c4 (List.get?_mem hc4)
        split
        · next hcond10 =>
          obtain ⟨-, hdash, -⟩ := hcond10
          rw [h4'] at hdash
          rw [h4] at hc4
          rw [hc4] at hdash
          injection hdash with hd
          rw [hd] at hc4d
          exact absurd hc4d (by decide)
        · rfl
      · exact absurd h (by simp)

/-- The result of `parentLoop` satisfies the anchor predicate, and every
strictly earlier (nearer) entry fails it. -/
theorem parentLoop_eq_some (cfg : Config) (ps : List Path) (a : Path)
    (h : parentLoop cfg ps = some a) :
    isYearAnchor cfg a = true ∧
      ∃ l1 l2, ps = l1 ++ a :: l2 ∧ ∀ b ∈ l1, isYearAnchor cfg b = false := by
  induction ps with
  | nil => exact absurd h (by simp [parentLoop])
  | cons p rest ih =>
    unfold parentLoop at h
    split at h
    · next hp =>
      injection h with h
      subst h
      exact ⟨hp, [], rest, rfl, by simp⟩
    · next hp =>
      obtain ⟨ha, l1, l2, hsplit, hfail⟩ := ih h
      refine ⟨ha, p :: l1, l2, by rw [hsplit]; rfl, ?_⟩
      intro b hb
      rcases List.mem_cons.mp hb with rfl | hb
      · exact Bool.eq_false_iff.mpr hp
      · exact hfail b hb

/-- When `parentLoop` finds nothing, no entry satisfies the anchor predicate. -/
theorem parentLoop_eq_none (cfg : Config) (ps : List Path)
    (h : parentLoop cfg ps = none) :
    ∀ b ∈ ps, isYearAnchor cfg b = false := by
  induction ps with
  | nil => simp
  | cons p rest ih =>
    unfold parentLoop at h
    split at h
    · exact absurd h (by simp)
    · next hp =>
      intro b hb
      rcases List.mem_cons.mp hb with rfl | hb
      · exact Bool.eq_false_iff.mpr hp
      · exact ih h b hb

/-- The period loop returns the zone of the first applicable period of the
traversed list, defaulting to the system zone. -/
theorem tzLoop_eq (cfg : Config) (dt : DT) (path : Path) (l : List Period) :
    tzLoop cfg dt path l =
      (Option.map Period.timezone
        (List.filter (periodApplies cfg dt path) l).head?).getD cfg.systemZone := by
  induction l with
  | nil => rfl
  | cons p rest ih =>
    by_cases hp : periodApplies cfg dt path p = true
    · simp [tzLoop, hp, List.filter_cons]
    · simp [tzLoop, hp, List.filter_cons, ih]

/-- A format that parses an anchor directory's name yields a year inside
the configured valid-year set. -/
theorem anchor_parse_year (cfg : Config) (a : Path) (fmt : DateFormat) (d : NaiveDT)
    (ha : isYearAnchor cfg a = true)
    (h : _get_date_without_time (pathName a) fmt = some d) :
    yearMem cfg d.year = true := by
  rw [year_of_parse _ _ _ h]
  unfold isYearAnchor at ha
  simp only [Bool.and_eq_true] at ha
  exact ha.2

/-- Python `replace(month=...)` does not change the year. -/
theorem replaceMonth_year (n : NaiveDT) (m : Nat) (n' : NaiveDT)
    (h : replaceMonth n m = .ok n') : n'.year = n.year := by
  unfold replaceMonth at h
  split at h
  · exact absurd h (by simp)
  · split at h
    · exact absurd h (by simp)
    · injection h with h
      rw [← h]

/-- Python `replace(day=...)` does not change the year. -/
theorem replaceDay_year (n : NaiveDT) (d : Nat) (n' : NaiveDT)
    (h : replaceDay n d = .ok n') : n'.year = n.year := by
  unfold replaceDay at h
  split at h
  · injection h with h
    rw [← h]
  · exact absurd h (by simp)

/-- The source loop of `rule_date_without_time` equals the spec's
continue-on-abstain loop on the two formats the rule uses: the only case
in which they could diverge needs one candidate to parse under both
`%Y%m%d` and `%Y-%m-%d`, which `ymd8_excludes_ymdDash` rules out. -/
theorem rule2_cont_eq (cfg : Config) (fs : FileStat) :
    rule_date_without_time cfg fs = rule_date_without_time_cont cfg fs := by
  unfold rule_date_without_time rule_date_without_time_cont
  cases hfd : _first_digit_index (pathStem fs.path) with
  | none => rfl
  | some i =>
    cases h8 : _get_date_without_time (List.drop i (pathStem fs.path)) .ymd8 with
    | some d =>
      cases hy : yearMem cfg d.year with
      | true => simp [tryFormats2, tryFormats2Cont, h8, hy, _add_time_from_stat]
      | false =>
        have hD := ymd8_excludes_ymdDash _ _ h8
        simp [tryFormats2, tryFormats2Cont, h8, hy, hD, _add_time_from_stat]
    | none =>
      cases hD : _get_date_without_time (List.drop i (pathStem fs.path)) .ymdDash with
      | some d =>
        cases hy : yearMem cfg d.year with
        | true => simp [tryFormats2, tryFormats2Cont, h8, hD, hy, _add_time_from_stat]
        | false => simp [tryFormats2, tryFormats2Cont, h8, hD, hy, _add_time_from_stat]
      | none => simp [tryFormats2, tryFormats2Cont, h8, hD]

/-- The source loop of `rule_date_in_dir` equals the spec's
continue-on-abstain loop whenever every parse of the anchor name yields a
plausible year (which `anchor_parse_year` guarantees). -/
theorem tryFormats3_cont_eq (cfg : Config) (fs : FileStat) (name : Str)
    (hy : ∀ fmt d, _get_date_without_time name fmt = some d → yearMem cfg d.year = true)
    (fmts : List DateFormat) :
    tryFormats3 cfg fs name fmts = tryFormats3Cont cfg fs name fmts false [] := by
  induction fmts with
  | nil => rfl
  | cons fmt rest ih =>
    unfold tryFormats3 tryFormats3Cont
    cases hp : _get_date_without_time name fmt with
    | none => exact ih
    | some d0 =>
      dsimp only
      unfold dirStep
      cases hm : (if fmtHasMonth fmt then Except.ok d0 else replaceMonth d0 fs.mtime.month) with
      | error e => rfl
      | ok d1 =>
        dsimp only
        cases hd : (if fmtHasDay fmt then Except.ok d1 else replaceDay d1 fs.mtime.day) with
        | error e => rfl
        | ok d2 =>
          have h1 : d1.year = d0.year := by
            split at hm
            · injection hm with hm
              rw [← hm]
            · exact replaceMonth_year _ _ _ hm
          have h2 : d2.year = d0.year := by
            rw [← h1]
            split at hd
            · injection hd with hd
              rw [← hd]
            · exact replaceDay_year _ _ _ hd
          have hyr : yearMem cfg d2.year = true := by
            rw [h2]
            exact hy fmt d0 hp
          simp [hyr, _add_time_from_stat]

/-- The combined instant spelt out: parsed date with the mtime's
system-zone time-of-day. -/
theorem combineStat_eq (cfg : Config) (d : NaiveDT) (fs : FileStat) :
    combineStat cfg d fs =
      ⟨d.year, d.month, d.day, fs.mtime.hour, fs.mtime.minute, fs.mtime.second⟩ := by
  simp only [combineStat, astimezone_mtime]
  rfl

/-- If `_apply_time_zone` produced a corrected instant for `fs`, it
produces no correction once the mtime is that instant. -/
theorem applyTZ_idem (cfg : Config) (fs fs' : FileStat) (d t : NaiveDT)
    (hp' : fs'.path = fs.path) (hm' : fs'.mtime = t)
    (h : (_apply_time_zone cfg d fs).1 = some t) :
    _apply_time_zone cfg d fs' = (none, []) := by
  unfold _apply_time_zone at h ⊢
  cases hy : yearMem cfg d.year with
  | false => rw [hy] at h; simp at h
  | true =>
    rw [hy] at h
    simp only [Bool.true_eq_false, if_false, if_neg] at h
    rw [if_neg (by simp)]
    unfold _apply_time_zone_core at h ⊢
    rw [hp']
    split at h
    · injection h with h
      rw [if_neg]
      intro hne
      apply hne
      simp [absSeconds, mtimeDT, hm', ← h]
    · simp at h

/-- If `_add_time_from_stat` produced a corrected instant for `fs`, it
produces no correction once the mtime is that instant. -/
theorem addTime_idem (cfg : Config) (fs fs' : FileStat) (d t : NaiveDT)
    (hm' : fs'.mtime = t)
    (h : (_add_time_from_stat cfg d fs).1 = some t) :
    _add_time_from_stat cfg d fs' = (none, []) := by
  unfold _add_time_from_stat at h ⊢
  cases hy : yearMem cfg d.year with
  | false => rw [hy] at h; simp at h
  | true =>
    rw [hy] at h
    simp only [Bool.true_eq_false, if_false, if_neg] at h
    rw [if_neg (by simp)]
    unfold _add_time_from_stat_core at h ⊢
    split at h
    · injection h with h
      have hc : combineStat cfg d fs' = t := by
        rw [combineStat_eq, hm', ← h, combineStat_eq]
      rw [if_neg]
      intro hne
      apply hne
      simp [absSeconds, mtimeDT, hm', hc]
    · simp at h

/-- Idempotence of `rule_date_n_time`. -/
theorem idem1 (cfg : Config) (fs fs' : FileStat) (t : NaiveDT) (ds : List Diag)
    (hp' : fs'.path = fs.path) (hm' : fs'.mtime = t)
    (h : rule_date_n_time cfg fs = ((true, some t), ds)) :
    rule_date_n_time cfg fs' = ((true, none), []) := by
  unfold rule_date_n_time at h ⊢
  rw [hp']
  cases hfd : _first_digit_index (pathStem fs.path) with
  | none => rw [hfd] at h; simp at h
  | some i =>
    rw [hfd] at h
    dsimp only at h ⊢
    cases hget : _get_date_n_time (List.take 15 (List.drop i (pathStem fs.path))) with
    | none => rw [hget] at h; simp at h
    | some dt =>
      rw [hget] at h
      dsimp only at h ⊢
      have h1 : (_apply_time_zone cfg dt fs).1 = some t := by
        have h2 := congrArg (fun x => x.1.2) h
        simpa using h2
      rw [applyTZ_idem cfg fs fs' dt t hp' hm' h1]

/-- Idempotence of `rule_date_without_time`. -/
theorem idem2 (cfg : Config) (fs fs' : FileStat) (t : NaiveDT) (ds : List Diag)
    (hp' : fs'.path = fs.path) (hm' : fs'.mtime = t)
    (h : rule_date_without_time cfg fs = ((true, some t), ds)) :
    rule_date_without_time cfg fs' = ((true, none), []) := by
  unfold rule_date_without_time at h ⊢
  rw [hp']
  cases hfd : _first_digit_index (pathStem fs.path) with
  | none => rw [hfd] at h; simp at h
  | some i =>
    rw [hfd] at h
    dsimp only at h ⊢
    cases h8 : _get_date_without_time (List.drop i (pathStem fs.path)) .ymd8 with
    | some d =>
      simp only [tryFormats2, h8] at h ⊢
      have h1 : (_add_time_from_stat cfg d fs).1 = some t := by
        have h2 := congrArg (fun x => x.1.2) h
        simpa using h2
      rw [addTime_idem cfg fs fs' d t hm' h1]
    | none =>
      simp only [tryFormats2, h8] at h ⊢
      cases hD : _get_date_without_time (List.drop i (pathStem fs.path)) .ymdDash with
      | some d =>
        simp only [hD] at h ⊢
        have h1 : (_add_time_from_stat cfg d fs).1 = some t := by
          have h2 := congrArg (fun x => x.1.2) h
          simpa using h2
        rw [addTime_idem cfg fs fs' d t hm' h1]
      | none =>
        simp only [hD] at h
        simp at h

/-- Replacing the day with the day of the result succeeds with the same
result. -/
theorem replaceDay_mono (n : NaiveDT) (v : Nat) (n' : NaiveDT)
    (h : replaceDay n v = .ok n') : replaceDay n n'.day = .ok n' := by
  unfold replaceDay at h ⊢
  split at h
  · next h1 =>
    injection h with h
    subst h
    dsimp only
    rw [if_pos h1]
  · simp at h

/-- Replacing the month with the month of the result succeeds with the
same result. -/
theorem replaceMonth_mono (n : NaiveDT) (v : Nat) (n' : NaiveDT)
    (h : replaceMonth n v = .ok n') : replaceMonth n n'.month = .ok n' := by
  unfold replaceMonth at h ⊢
  split at h
  · simp at h
  · next h1 =>
    split at h
    · simp at h
    · next h2 =>
      injection h with h
      subst h
      dsimp only
      rw [if_neg h1, if_neg h2]

/-- Python `replace(day=...)` does not change the month. -/
theorem replaceDay_month (n : NaiveDT) (d : Nat) (n' : NaiveDT)
    (h : replaceDay n d = .ok n') : n'.month = n.month := by
  unfold replaceDay at h
  split at h
  · injection h with h
    rw [← h]
  · exact absurd h (by simp)

/-- Python `replace(day=...)` sets the day. -/
theorem replaceDay_day (n : NaiveDT) (d : Nat) (n' : NaiveDT)
    (h : replaceDay n d = .ok n') : n'.day = d := by
  unfold replaceDay at h
  split at h
  · injection h with h
    rw [← h]
  · exact absurd h (by simp)

/-- A correction produced by `_add_time_from_stat` is the combined
instant. -/
theorem addTime_some_eq (cfg : Config) (d : NaiveDT) (fs : FileStat) (t : NaiveDT)
    (h : (_add_time_from_stat cfg d fs).1 = some t) : t = combineStat cfg d fs := by
  unfold _add_time_from_stat at h
  cases hy : yearMem cfg d.year with
  | false => rw [hy] at h; simp at h
  | true =>
    rw [hy] at h
    simp only [Bool.true_eq_false, if_false, if_neg] at h
    unfold _add_time_from_stat_core at h
    split at h
    · injection h with h
      rw [h]
    · simp at h

/-- If `dirStep` produced a corrected instant for `fs`, it produces no
correction (and no error) once the mtime is that instant. -/
theorem dirStep_idem (cfg : Config) (fs fs' : FileStat) (d0 t : NaiveDT)
    (ds : List Diag) (fmt : DateFormat) (hm' : fs'.mtime = t)
    (h : dirStep cfg fs d0 fmt = .ok ((true, some t), ds)) :
    dirStep cfg fs' d0 fmt = .ok ((true, none), []) := by
  unfold dirStep at h ⊢
  cases fmt with
  | ymd8 =>
    simp only [fmtHasMonth, fmtHasDay, eq_self_iff_true, if_true] at h ⊢
    have h1 : (_add_time_from_stat cfg d0 fs).1 = some t := by
      have h2 := congrArg (fun x => match x with
        | Except.ok r => r.1.2
        | Except.error _ => none) h
      simpa using h2
    rw [addTime_idem cfg fs fs' d0 t hm' h1]
  | ymdDash =>
    simp only [fmtHasMonth, fmtHasDay, eq_self_iff_true, if_true] at h ⊢
    have h1 : (_add_time_from_stat cfg d0 fs).1 = some t := by
      have h2 := congrArg (fun x => match x with
        | Except.ok r => r.1.2
        | Except.error _ => none) h
      simpa using h2
    rw [addTime_idem cfg fs fs' d0 t hm' h1]
  | ymDash =>
    simp only [fmtHasMonth, fmtHasDay, eq_self_iff_true, if_true, Bool.false_eq_true, if_false] at h ⊢
    cases hrd : replaceDay d0 fs.mtime.day with
    | error e => rw [hrd] at h; simp at h
    | ok d2 =>
      rw [hrd] at h
      dsimp only at h
      have h1 : (_add_time_from_stat cfg d2 fs).1 = some t := by
        have h2 := congrArg (fun x => match x with
          | Except.ok r => r.1.2
          | Except.error _ => none) h
        simpa using h2
      have ht : t = combineStat cfg d2 fs := addTime_some_eq cfg d2 fs t h1
      have hday : fs'.mtime.day = d2.day := by
        rw [hm', ht, combineStat_eq]
      rw [hday, replaceDay_mono d0 fs.mtime.day d2 hrd]
      dsimp only
      rw [addTime_idem cfg fs fs' d2 t hm' h1]
  | yOnly =>
    simp only [fmtHasMonth, fmtHasDay, Bool.false_eq_true, if_false] at h ⊢
    cases hrm : replaceMonth d0 fs.mtime.month with
    | error e => rw [hrm] at h; simp at h
    | ok d1 =>
      rw [hrm] at h
      dsimp only at h
      cases hrd : replaceDay d1 fs.mtime.day with
      | error e => rw [hrd] at h; simp at h
      | ok d2 =>
        rw [hrd] at h
        dsimp only at h
        have h1 : (_add_time_from_stat cfg d2 fs).1 = some t := by
          have h2 := congrArg (fun x => match x with
            | Except.ok r => r.1.2
            | Except.error _ => none) h
          simpa using h2
        have ht : t = combineStat cfg d2 fs := addTime_some_eq cfg d2 fs t h1
        have hmon : fs'.mtime.month = d1.month := by
          rw [hm', ht, combineStat_eq]
          exact replaceDay_month d1 fs.mtime.day d2 hrd
        have hday : fs'.mtime.day = d2.day := by
          rw [hm', ht, combineStat_eq]
        rw [hmon, replaceMonth_mono d0 fs.mtime.month d1 hrm]
        dsimp only
        rw [hday, replaceDay_mono d1 fs.mtime.day d2 hrd]
        dsimp only
        rw [addTime_idem cfg fs fs' d2 t hm' h1]

/-- Idempotence of the format loop of `rule_date_in_dir`. -/
theorem tryFormats3_idem (cfg : Config) (fs fs' : FileStat) (name : Str)
    (t : NaiveDT) (ds : List Diag) (fmts : List DateFormat) (hm' : fs'.mtime = t)
    (h : tryFormats3 cfg fs name fmts = .ok ((true, some t), ds)) :
    tryFormats3 cfg fs' name fmts = .ok ((true, none), []) := by
  induction fmts with
  | nil => exact absurd h (by simp [tryFormats3])
  | cons fmt rest ih =>
    unfold tryFormats3 at h ⊢
    cases hp : _get_date_without_time name fmt with
    | none =>
      rw [hp] at h
      dsimp only at h ⊢
      exact ih h
    | some d0 =>
      rw [hp] at h
      dsimp only at h ⊢
      exact dirStep_idem cfg fs fs' d0 t ds fmt hm' h

/-- Idempotence of `rule_date_in_dir`. -/
theorem idem3 (cfg : Config) (fs fs' : FileStat) (t : NaiveDT) (ds : List Diag)
    (hp' : fs'.path = fs.path) (hm' : fs'.mtime = t)
    (h : rule_date_in_dir cfg fs = .ok ((true, some t), ds)) :
    rule_date_in_dir cfg fs' = .ok ((true, none), []) := by
  unfold rule_date_in_dir at h ⊢
  rw [hp']
  cases hpw : _parent_with_year cfg fs.path with
  | none => rw [hpw] at h; simp at h
  | some a =>
    rw [hpw] at h
    dsimp only at h ⊢
    exact tryFormats3_idem cfg fs fs' (pathName a) t ds _ hm' h

/-- C3: the timezone resolver is total and deterministic (it is a Lean
function into `Zone`), and for every instant and path it returns the zone
of the last-declared configured period whose directory scope contains the
path's parent directory and whose inclusive range contains the instant
converted to the system zone (`periodApplies`); when no period satisfies
both conditions it returns the system default zone. -/
theorem timezone_for_date_last_declared (cfg : Config) (dt : DT) (path : Path) :
    timezone_for_date cfg dt path =
      (Option.map Period.timezone
        (List.filter (periodApplies cfg dt path) cfg.periods).getLast?).getD
        cfg.systemZone := by
  unfold timezone_for_date
  rw [tzLoop_eq, List.filter_reverse, List.head?_reverse]

/-- C5: an implausible-year abstention is non-fatal to the remaining
parse attempts: both `rule_date_without_time` and `rule_date_in_dir`
behave exactly as the spec's continue-on-abstain loops
(`rule_date_without_time_cont`, `rule_date_in_dir_cont`), in which a
format that parses with a year outside the valid-year set only records
the diagnostic and the subsequent date-format attempts of the same rule
still run. -/
theorem implausible_year_nonfatal (cfg : Config) (fs : FileStat) :
    rule_date_without_time cfg fs = rule_date_without_time_cont cfg fs ∧
      rule_date_in_dir cfg fs = rule_date_in_dir_cont cfg fs := by
  constructor
  · exact rule2_cont_eq cfg fs
  · unfold rule_date_in_dir rule_date_in_dir_cont
    cases hpw : _parent_with_year cfg fs.path with
    | none => rfl
    | some a =>
      exact tryFormats3_cont_eq cfg fs (pathName a)
        (fun fmt d hp =>
          anchor_parse_year cfg a fmt d (parentLoop_eq_some cfg _ a hpw).1 hp) _

/-- C4: idempotence of every rule: if a rule returns
`(applicable = true, newInstant = some t)` on a file, then the same rule,
run on the file with its modification instant replaced by `t`, returns a
verdict with `newInstant = none` (and no diagnostic).  For
`rule_date_in_dir` the rerun also raises no error. -/
theorem rules_idempotent (cfg : Config) (fs : FileStat) (t : NaiveDT) (ds : List Diag) :
    (rule_date_n_time cfg fs = ((true, some t), ds) →
      rule_date_n_time cfg { fs with mtime := t } = ((true, none), [])) ∧
    (rule_date_without_time cfg fs = ((true, some t), ds) →
      rule_date_without_time cfg { fs with mtime := t } = ((true, none), [])) ∧
    (rule_date_in_dir cfg fs = .ok ((true, some t), ds) →
      rule_date_in_dir cfg { fs with mtime := t } = .ok ((true, none), [])) :=
  ⟨fun h => idem1 cfg fs _ t ds rfl rfl h,
   fun h => idem2 cfg fs _ t ds rfl rfl h,
   fun h => idem3 cfg fs _ t ds rfl rfl h⟩

/-- Witness for C4: each rule applied to a concrete already-corrected file
(the mtime is the instant the rule computed on a first run) reports
`applicable` with no new instant. -/
theorem rules_idempotent_witness :
    rule_date_n_time cfgW
        { path := [String.toList "IMG_20191127_194031.jpg"],
          mtime := ⟨2019, 11, 27, 19, 40, 31⟩ } = ((true, none), []) ∧
    rule_date_without_time cfgW
        { path := [String.toList "VID-20200412-WA0000.mp4"],
          mtime := ⟨2020, 4, 12, 10, 0, 0⟩ } = ((true, none), []) ∧
    rule_date_in_dir cfgW
        { path := [String.toList "2020-12-31", String.toList "SNC00001.jpg"],
          mtime := ⟨2020, 12, 31, 10, 0, 0⟩ } = .ok ((true, none), []) :=
  ⟨(rules_idempotent cfgW
      ⟨[String.toList "IMG_20191127_194031.jpg"], ⟨2019, 1, 1, 0, 0, 0⟩⟩
      ⟨2019, 11, 27, 19, 40, 31⟩ []).1 (by decide),
   (rules_idempotent cfgW
      ⟨[String.toList "VID-20200412-WA0000.mp4"], ⟨2020, 4, 13, 10, 0, 0⟩⟩
      ⟨2020, 4, 12, 10, 0, 0⟩ []).2.1 (by decide),
   (rules_idempotent cfgW
      ⟨[String.toList "2020-12-31", String.toList "SNC00001.jpg"], ⟨2020, 1, 15, 10, 0, 0⟩⟩
      ⟨2020, 12, 31, 10, 0, 0⟩ []).2.2 (by decide)⟩

/-- C1: FALSIFIED BY THE CODE.  `rule_date_n_time` and
`rule_date_without_time` are total Lean functions of the embedding, but
`rule_date_in_dir` does not always return a verdict: on the file
`/a/2020-02/f.jpg` with current mtime 2020-01-31 10:00:00 (system zone)
the anchor directory `2020-02` parses under the year-month layout and
`datetime.replace(day=31)` on the February date raises `ValueError`, which
no handler catches, so the rule raises instead of returning a verdict. -/
theorem rule_date_in_dir_raises_feb_day31 :
    rule_date_in_dir cfgW fsFeb31 = .error "day is out of range for month" := by
  decide

/-- C6: membership in `YEARS` is exactly "some configured period's range
covers the year"; and a file whose parsed filename year is outside the set
gets no correction from that parse attempt and exactly one diagnostic
naming that year and the file's path — shown for `rule_date_n_time` and
for both layouts of `rule_date_without_time`. -/
theorem valid_year_set_spec (cfg : Config) :
    (∀ y : Nat, yearMem cfg y = true ↔
      ∃ p ∈ cfg.periods, p.start.naive.year ≤ y ∧ y ≤ p.stop.naive.year) ∧
    (∀ fs i dt, _first_digit_index (pathStem fs.path) = some i →
      _get_date_n_time (List.take 15 (List.drop i (pathStem fs.path))) = some dt →
      yearMem cfg dt.year = false →
      rule_date_n_time cfg fs = ((true, none), [⟨dt.year, fs.path⟩])) ∧
    (∀ fs i dt, _first_digit_index (pathStem fs.path) = some i →
      _get_date_without_time (List.drop i (pathStem fs.path)) .ymd8 = some dt →
      yearMem cfg dt.year = false →
      rule_date_without_time cfg fs = ((true, none), [⟨dt.year, fs.path⟩])) ∧
    (∀ fs i dt, _first_digit_index (pathStem fs.path) = some i →
      _get_date_without_time (List.drop i (pathStem fs.path)) .ymd8 = none →
      _get_date_without_time (List.drop i (pathStem fs.path)) .ymdDash = some dt →
      yearMem cfg dt.year = false →
      rule_date_without_time cfg fs = ((true, none), [⟨dt.year, fs.path⟩])) := by
  refine ⟨?_, ?_, ?_, ?_⟩
  · intro y
    rw [yearMem, decide_eq_true_iff, YEARS, List.mem_flatMap]
    constructor
    · rintro ⟨p, hp, hy⟩
      rw [List.mem_range'] at hy
      obtain ⟨i, hi, rfl⟩ := hy
      exact ⟨p, hp, by omega, by omega⟩
    · rintro ⟨p, hp, h1, h2⟩
      refine ⟨p, hp, ?_⟩
      rw [List.mem_range']
      exact ⟨y - p.start.naive.year, by omega, by omega⟩
  · intro fs i dt hfd hget hy
    unfold rule_date_n_time
    rw [hfd]
    dsimp only
    rw [hget]
    dsimp only
    unfold _apply_time_zone
    rw [hy]
    simp
  · intro fs i dt hfd h8 hy
    unfold rule_date_without_time
    rw [hfd]
    dsimp only
    simp only [tryFormats2, h8]
    unfold _add_time_from_stat
    rw [hy]
    simp
  · intro fs i dt hfd h8 hD hy
    unfold rule_date_without_time
    rw [hfd]
    dsimp only
    simp only [tryFormats2, h8, hD]
    unfold _add_time_from_stat
    rw [hy]
    simp

/-- Witness for C6: in the 2019-2020 test configuration, 2019 is valid,
and files with filename year 1980 draw exactly one diagnostic naming 1980
and the file, with an applicable-but-uncorrected verdict. -/
theorem valid_year_set_spec_witness :
    yearMem cfgW 2019 = true ∧
    rule_date_n_time cfgW ⟨[String.toList "IMG_19801127_194031.jpg"], ⟨2019, 1, 1, 0, 0, 0⟩⟩ =
      ((true, none), [⟨1980, [String.toList "IMG_19801127_194031.jpg"]⟩]) ∧
    rule_date_without_time cfgW ⟨[String.toList "19800412-x.mp4"], ⟨2019, 1, 1, 0, 0, 0⟩⟩ =
      ((true, none), [⟨1980, [String.toList "19800412-x.mp4"]⟩]) :=
  ⟨((valid_year_set_spec cfgW).1 2019).mpr ⟨periodW, by decide⟩,
   (valid_year_set_spec cfgW).2.1
     ⟨[String.toList "IMG_19801127_194031.jpg"], ⟨2019, 1, 1, 0, 0, 0⟩⟩ 4
     ⟨1980, 11, 27, 19, 40, 31⟩ (by decide) (by decide) (by decide),
   (valid_year_set_spec cfgW).2.2.1
     ⟨[String.toList "19800412-x.mp4"], ⟨2019, 1, 1, 0, 0, 0⟩⟩ 0
     ⟨1980, 4, 12, 0, 0, 0⟩ (by decide) (by decide) (by decide)⟩

/-- C7: when `_parent_with_year` finds an anchor it is a qualifying year
directory and every nearer ancestor fails the test (the ancestor list runs
nearest-first); when it finds none, no ancestor qualifies.  Against the
anchor's full name the rule then uses the first parsing layout in the
order `%Y-%m-%d`, `%Y-%m`, `%Y` (most specific first). -/
theorem anchor_nearest_and_layout_order (cfg : Config) (fs : FileStat) :
    (∀ a, _parent_with_year cfg fs.path = some a →
      isYearAnchor cfg a = true ∧
      ∃ nearer rest, pathParents fs.path = nearer ++ a :: rest ∧
        ∀ b ∈ nearer, isYearAnchor cfg b = false) ∧
    (_parent_with_year cfg fs.path = none →
      ∀ b ∈ pathParents fs.path, isYearAnchor cfg b = false) ∧
    (∀ a, _parent_with_year cfg fs.path = some a →
      (∀ d, _get_date_without_time (pathName a) .ymdDash = some d →
        rule_date_in_dir cfg fs = dirStep cfg fs d .ymdDash) ∧
      (_get_date_without_time (pathName a) .ymdDash = none →
        ∀ d, _get_date_without_time (pathName a) .ymDash = some d →
          rule_date_in_dir cfg fs = dirStep cfg fs d .ymDash) ∧
      (_get_date_without_time (pathName a) .ymdDash = none →
        _get_date_without_time (pathName a) .ymDash = none →
        ∀ d, _get_date_without_time (pathName a) .yOnly = some d →
          rule_date_in_dir cfg fs = dirStep cfg fs d .yOnly)) := by
  refine ⟨?_, ?_, ?_⟩
  · intro a ha
    exact parentLoop_eq_some cfg (pathParents fs.path) a ha
  · intro ha b hb
    exact parentLoop_eq_none cfg (pathParents fs.path) ha b hb
  · intro a ha
    refine ⟨?_, ?_, ?_⟩
    · intro d hd
      unfold rule_date_in_dir
      rw [ha]
      dsimp only
      unfold tryFormats3
      rw [hd]
    · intro h1 d hd
      unfold rule_date_in_dir
      rw [ha]
      dsimp only
      unfold tryFormats3
      rw [h1]
      dsimp only
      unfold tryFormats3
      rw [hd]
    · intro h1 h2 d hd
      unfold rule_date_in_dir
      rw [ha]
      dsimp only
      unfold tryFormats3
      rw [h1]
      dsimp only
      unfold tryFormats3
      rw [h2]
      dsimp only
      unfold tryFormats3
      rw [hd]

/-- Witness for C7: with nested year directories `/2019/2020-05-06/`, the
inner directory anchors and the full-date layout wins. -/
theorem anchor_nearest_and_layout_order_witness :
    _parent_with_year cfgW fs7.path =
      some [String.toList "2019", String.toList "2020-05-06"] ∧
    rule_date_in_dir cfgW fs7 = dirStep cfgW fs7 ⟨2020, 5, 6, 0, 0, 0⟩ .ymdDash ∧
    rule_date_in_dir cfgW fs7 =
      .ok ((true, some ⟨2020, 5, 6, 4, 5, 6⟩), []) :=
  ⟨by decide,
   ((anchor_nearest_and_layout_order cfgW fs7).2.2
       [String.toList "2019", String.toList "2020-05-06"] (by decide)).1
     ⟨2020, 5, 6, 0, 0, 0⟩ (by decide),
   by decide⟩

/-- C8: on a stem `IMG_20191127_194031` whose parsed year is configured
and whose current mtime differs from the reconciled instant,
`rule_date_n_time` is applicable and the new instant is 2019-11-27
19:40:31 stamped with the zone resolved from the parsed date and the
file's path, converted to the system zone (`reconciledInstant`). -/
theorem rule_date_n_time_full_token (cfg : Config) (fs : FileStat)
    (hstem : pathStem fs.path = String.toList "IMG_20191127_194031")
    (hyear : yearMem cfg 2019 = true)
    (hdiff : absSeconds cfg
        ⟨reconciledInstant cfg ⟨2019, 11, 27, 19, 40, 31⟩ fs.path, some cfg.systemZone⟩ ≠
      absSeconds cfg (mtimeDT cfg fs)) :
    rule_date_n_time cfg fs =
      ((true, some (reconciledInstant cfg ⟨2019, 11, 27, 19, 40, 31⟩ fs.path)), []) := by
  unfold rule_date_n_time
  rw [hstem]
  have hfd : _first_digit_index (String.toList "IMG_20191127_194031") = some 4 := by decide
  rw [hfd]
  dsimp only
  have hget : _get_date_n_time
      (List.take 15 (List.drop 4 (String.toList "IMG_20191127_194031"))) =
      some ⟨2019, 11, 27, 19, 40, 31⟩ := by decide
  rw [hget]
  dsimp only
  unfold _apply_time_zone
  dsimp only
  rw [hyear]
  simp only [Bool.true_eq_false, if_false, if_neg]
  unfold _apply_time_zone_core
  rw [if_pos hdiff]

/-- Witness for C8: against the configuration whose period declares a zone
one hour east of the system zone, the computed instant is 18:40:31 in the
system zone. -/
theorem rule_date_n_time_full_token_witness :
    rule_date_n_time cfgE ⟨[String.toList "IMG_20191127_194031.jpg"], ⟨2020, 1, 1, 0, 0, 0⟩⟩ =
      ((true, some ⟨2019, 11, 27, 18, 40, 31⟩), []) := by
  have h := rule_date_n_time_full_token cfgE
    ⟨[String.toList "IMG_20191127_194031.jpg"], ⟨2020, 1, 1, 0, 0, 0⟩⟩
    (by decide) (by decide) (by decide)
  exact h.trans (by decide)

/-- C9 counterexample: on the spec's own example input — stem
`VID-20200412-WA0000`, current mtime exactly 2020-04-12T10:00:00 in the
system zone (year 2020 configured) — the combined instant equals the
current mtime, so the no-op suppression fires: the verdict is
`(applicable = true, newInstant = none)`, not a new instant. -/
theorem rule_date_without_time_noop_counterexample :
    rule_date_without_time cfgW fs9 = ((true, none), []) ∧
    (rule_date_without_time cfgW fs9).1.2 ≠ some ⟨2020, 4, 12, 10, 0, 0⟩ := by
  decide

/-- C9 amended: on stem `VID-20200412-WA0000` with the year 2020
configured, `rule_date_without_time` is applicable and combines date
2020-04-12 with the mtime's system-zone time-of-day (`combineStat`); the
combination is returned as the new instant exactly when it differs from
the current mtime, and suppressed (`newInstant = none`) when — as with
mtime 2020-04-12T10:00:00 — it equals it. -/
theorem rule_date_without_time_example_amended (cfg : Config) (fs : FileStat)
    (hstem : pathStem fs.path = String.toList "VID-20200412-WA0000")
    (hyear : yearMem cfg 2020 = true) :
    rule_date_without_time cfg fs =
      ((true,
        if absSeconds cfg ⟨combineStat cfg ⟨2020, 4, 12, 0, 0, 0⟩ fs, some cfg.systemZone⟩ ≠
            absSeconds cfg (mtimeDT cfg fs) then
          some (combineStat cfg ⟨2020, 4, 12, 0, 0, 0⟩ fs)
        else none), []) := by
  unfold rule_date_without_time
  rw [hstem]
  have hfd : _first_digit_index (String.toList "VID-20200412-WA0000") = some 4 := by decide
  rw [hfd]
  dsimp only
  have h8 : _get_date_without_time (List.drop 4 (String.toList "VID-20200412-WA0000")) .ymd8 =
      some ⟨2020, 4, 12, 0, 0, 0⟩ := by decide
  simp only [tryFormats2, h8]
  unfold _add_time_from_stat
  dsimp only
  rw [hyear]
  simp only [Bool.true_eq_false, if_false, if_neg]
  unfold _add_time_from_stat_core
  rfl

/-- Witness for C9's amended claim: with an mtime whose instant differs
from the combination, the rule yields the combined instant
2020-04-12T10:00:00. -/
theorem rule_date_without_time_example_amended_witness :
    rule_date_without_time cfgW
        ⟨[String.toList "VID-20200412-WA0000.mp4"], ⟨2021, 1, 1, 10, 0, 0⟩⟩ =
      ((true, some ⟨2020, 4, 12, 10, 0, 0⟩), []) := by
  have h := rule_date_without_time_example_amended cfgW
    ⟨[String.toList "VID-20200412-WA0000.mp4"], ⟨2021, 1, 1, 10, 0, 0⟩⟩
    (by decide) (by decide)
  exact h.trans (by decide)

/-- C10: `rule_date_n_time` tries the full date+time token only on the
single 15-character window starting at the stem's first digit: when that
window does not parse, the verdict is `(false, none)` with no diagnostic,
whatever the rest of the stem contains. -/
theorem rule_date_n_time_single_window (cfg : Config) (fs : FileStat) (i : Nat)
    (h1 : _first_digit_index (pathStem fs.path) = some i)
    (h2 : _get_date_n_time (List.take 15 (List.drop i (pathStem fs.path))) = none) :
    rule_date_n_time cfg fs = ((false, none), []) := by
  unfold rule_date_n_time
  rw [h1]
  dsimp only
  rw [h2]

/-- Witness for C10: on stem `1IMG_20191127_194031` the window at the
first digit (index 0) is `1IMG_20191127_1`, which does not parse, so the
rule is not applicable — even though a valid token starts at index 5. -/
theorem rule_date_n_time_single_window_witness :
    rule_date_n_time cfgW ⟨[String.toList "1IMG_20191127_194031.jpg"], ⟨2019, 1, 1, 0, 0, 0⟩⟩ =
      ((false, none), []) ∧
    _get_date_n_time
        (List.take 15 (List.drop 5 (pathStem [String.toList "1IMG_20191127_194031.jpg"]))) =
      some ⟨2019, 11, 27, 19, 40, 31⟩ :=
  ⟨rule_date_n_time_single_window cfgW
     ⟨[String.toList "1IMG_20191127_194031.jpg"], ⟨2019, 1, 1, 0, 0, 0⟩⟩ 0
     (by decide) (by decide),
   by decide⟩

/-- C2: the full-timestamp parser returns a match exactly when its input
splits as eight digits, a literal underscore and six digits, and the
digits form a constructor-valid calendar date (`dateOK`, year at least 1)
and clock time; any other input — in particular any 15-character string
not of shape `\d8_\d6` — yields no match.  Concretely,
`20191127_194031` parses to the naive instant 2019-11-27T19:40:31 and
`20191327_194031` (month 13) does not parse. -/
theorem full_timestamp_parser_spec :
    (∀ s : Str, (_get_date_n_time s).isSome = true ↔
      ∃ d8 d6 : List Char,
        s = d8 ++ '_' :: d6 ∧ List.length d8 = 8 ∧ d8.all Char.isDigit = true ∧
        List.length d6 = 6 ∧ d6.all Char.isDigit = true ∧
        dateOK (decDigits (List.take 4 d8)) (decDigits (List.take 2 (List.drop 4 d8)))
          (decDigits (List.drop 6 d8)) ∧
        decDigits (List.take 2 d6) ≤ 23 ∧
        decDigits (List.take 2 (List.drop 2 d6)) ≤ 59 ∧
        decDigits (List.drop 4 d6) ≤ 59) ∧
    _get_date_n_time (String.toList "20191127_194031") = some ⟨2019, 11, 27, 19, 40, 31⟩ ∧
    _get_date_n_time (String.toList "20191327_194031") = none := by
  refine ⟨?_, by decide, by decide⟩
  intro s
  constructor
  · intro h
    unfold _get_date_n_time at h
    split at h
    · simp at h
    · next hcond =>
      simp only [not_or, ne_eq, not_not, Bool.not_eq_false] at hcond
      obtain ⟨hlen, hd8, hu, hd6⟩ := hcond
      unfold strptimeFull at h
      dsimp only at h
      split at h
      · next hguard =>
        obtain ⟨hdate, hh, hm, hs⟩ := hguard
        have h8lt : 8 < List.length s := by omega
        have hu8 : s[8]? = some '_' := by
          rw [← List.get?_eq_getElem?]
          exact hu
        have h8 : s[8] = '_' := by
          rw [List.getElem?_eq_getElem h8lt] at hu8
          injection hu8
        have hdrop : List.drop 8 s = s[8] :: List.drop 9 s :=
          List.drop_eq_getElem_cons h8lt
        refine ⟨List.take 8 s, List.drop 9 s, ?_, ?_, hd8, ?_, ?_, ?_, hh, ?_, ?_⟩
        · calc s = List.take 8 s ++ List.drop 8 s := (List.take_append_drop 8 s).symm
            _ = List.take 8 s ++ '_' :: List.drop 9 s := by rw [hdrop, h8]
        · rw [List.length_take]
          omega
        · rw [List.length_drop]
          omega
        · rw [List.take_of_length_le (by rw [List.length_drop]; omega)] at hd6
          exact hd6
        · have e1 : List.take 4 (List.take 8 s) = List.take 4 s := by
            rw [List.take_take]
            norm_num
          have e2 : List.take 2 (List.drop 4 (List.take 8 s)) =
              List.take 2 (List.drop 4 s) := by
            rw [List.drop_take, List.take_take]
            norm_num
          have e3 : List.drop 6 (List.take 8 s) = List.take 2 (List.drop 6 s) := by
            rw [List.drop_take]
          rw [e1, e2, e3]
          exact hdate
        · have e5 : List.take 2 (List.drop 2 (List.drop 9 s)) =
              List.take 2 (List.drop 11 s) := by
            rw [List.drop_drop]
          rw [e5]
          exact hm
        · have e6 : List.drop 4 (List.drop 9 s) = List.take 2 (List.drop 13 s) := by
            rw [List.drop_drop, List.take_of_length_le (by rw [List.length_drop]; omega)]
          rw [e6]
          exact hs
      · simp at h
  · rintro ⟨d8, d6, rfl, h8len, h8dig, h6len, h6dig, hdate, hh, hm, hs⟩
    have htake8 : List.take 8 (d8 ++ '_' :: d6) = d8 := List.take_left' h8len
    have hdrop8 : List.drop 8 (d8 ++ '_' :: d6) = '_' :: d6 := List.drop_left' h8len
    have hdrop9 : List.drop 9 (d8 ++ '_' :: d6) = d6 := by
      rw [show (9 : Nat) = 8 + 1 from rfl, ← List.drop_drop, hdrop8]
      rfl
    have hlen : List.length (d8 ++ '_' :: d6) = 15 := by
      rw [List.length_append, List.length_cons]
      omega
    have hget8 : List.get? (d8 ++ '_' :: d6) 8 = some '_' := by
      rw [List.get?_append_right (by omega), h8len]
      simp
    unfold _get_date_n_time
    rw [if_neg]
    · unfold strptimeFull
      dsimp only
      rw [if_pos]
      · rfl
      · have f1 : List.take 4 (d8 ++ '_' :: d6) = List.take 4 d8 := by
          conv_rhs => rw [← htake8]
          rw [List.take_take]
          norm_num
        have f2 : List.take 2 (List.drop 4 (d8 ++ '_' :: d6)) =
            List.take 2 (List.drop 4 d8) := by
          conv_rhs => rw [← htake8]
          rw [List.drop_take, List.take_take]
          norm_num
        have f3 : List.take 2 (List.drop 6 (d8 ++ '_' :: d6)) = List.drop 6 d8 := by
          conv_rhs => rw [← htake8]
          rw [List.drop_take]
        have f4 : List.take 2 (List.drop 9 (d8 ++ '_' :: d6)) = List.take 2 d6 := by
          rw [hdrop9]
        have f5 : List.take 2 (List.drop 11 (d8 ++ '_' :: d6)) =
            List.take 2 (List.drop 2 d6) := by
          rw [show (11 : Nat) = 9 + 2 from rfl, ← List.drop_drop, hdrop9]
        have f6 : List.take 2 (List.drop 13 (d8 ++ '_' :: d6)) = List.drop 4 d6 := by
          rw [show (13 : Nat) = 9 + 4 from rfl, ← List.drop_drop, hdrop9,
            List.take_of_length_le (by rw [List.length_drop]; omega)]
        rw [f1, f2, f3, f4, f5, f6]
        exact ⟨hdate, hh, hm, hs⟩
    · simp only [not_or, ne_eq, not_not, Bool.not_eq_false]
      refine ⟨by omega, ?_, ?_, ?_⟩
      · rw [htake8]
        exact h8dig
      · exact hget8
      · rw [hdrop9, List.take_of_length_le (by omega)]
        exact h6dig

/-- Witness for C2: the characterization applied at a concrete leap-day
token, built from its explicit digit groups. -/
theorem full_timestamp_parser_spec_witness :
    (_get_date_n_time (String.toList "20200229_235959")).isSome = true :=
  (full_timestamp_parser_spec.1 (String.toList "20200229_235959")).mpr
    ⟨String.toList "20200229", String.toList "235959", by decide, by decide, by decide,
     by decide, by decide, by decide, by decide, by decide, by decide⟩

end PVA
